import Mathlib

/-!
# SimpleDelegation

A shallow embedding of `src/SimpleDelegation.h` (the `Delegate` and `Property`
class templates and their invokers) together with the properties the
specification states about them.

Modelling conventions.

* `W` is the state of the program outside the handles (globals and every
  object a receiver pointer may point to).  `E` is the type of thrown values.
* A C++ call is a function of the state that yields an outcome
  (`Except E R`: returned value or thrown value) and the state it leaves.
* The template parameter pack `TArgs...` is one type `A` (a tuple); the empty
  pack is `Unit`, and `void` is `Unit`.
* A receiver pointer `C*` is a value of a type `C` of references; a member
  function pointer `R (C::*)(TArgs...)` is a function that receives the
  receiver reference first (the implicit `this`).
* A callable object of class `O` is its data (`O`) together with its
  `operator()`, which may change the data of the object it is called on and
  the state.
* Handles are passed and returned explicitly: an operation on a handle yields
  the handle as it is after the call.
* Every function of the header takes its arguments by value and hands them on
  to a callee that takes them by value as well, so each hop copy-constructs
  them once more.  `invoke` and `set` are the operations for argument types
  whose copy construction has no effect on the state (built-in types,
  pointers); `invoke_by_value`, `call_operator` and `set_by_value` carry the
  copy constructor of the argument types and make every copy explicit.  The
  copy that initialises the parameters of the outermost call belongs to the
  caller.
-/

namespace SimpleDelegation

/-! ## Delegate -/

/-- The abstract class `Delegate<R, TArgs...>` with its three concrete
subclasses of namespace `Invokers`, as a closed sum.  The fields are the data
members of each subclass. -/
inductive Delegate (W E R A : Type) : Type 1 where
  /-- `Invokers::StaticInvoker`: `R (*function)(TArgs...)`. -/
  | StaticInvoker (function : A → W → Except E R × W)
  /-- `Invokers::MemberInvoker`: `C* sender` and `R (C::*function)(TArgs...)`. -/
  | MemberInvoker (C : Type) (sender : C) (function : C → A → W → Except E R × W)
  /-- `Invokers::ObjectInvoker`: `O object`, a copy held by value; `call` is
  `O::operator()`, fixed by the class `O`. -/
  | ObjectInvoker (O : Type) (call : O → A → W → Except E R × O × W) (object : O)

/-- `template<typename T> using Getter = Delegate<T>`. -/
abbrev Getter (W E T : Type) : Type 1 := Delegate W E T Unit

/-- `template<typename T> using Setter = Delegate<void, T>`. -/
abbrev Setter (W E T : Type) : Type 1 := Delegate W E Unit T

/-- `using Action = Delegate<void>`. -/
abbrev Action (W E : Type) : Type 1 := Delegate W E Unit Unit

namespace Delegate

variable {W E R A : Type}

/-- `Delegate::create(R (*function)(TArgs...))`:
`new Invokers::StaticInvoker<R, TArgs...>(function)`. -/
def create_function (function : A → W → Except E R × W) : Delegate W E R A :=
  StaticInvoker function

/-- `Delegate::create(C* sender, R (C::*function)(TArgs...))`:
`new Invokers::MemberInvoker<C, R, TArgs...>(sender, function)`. -/
def create_member {C : Type} (sender : C) (function : C → A → W → Except E R × W) :
    Delegate W E R A :=
  MemberInvoker C sender function

/-- `Delegate::create(const O& object)`:
`new Invokers::ObjectInvoker<O, R, TArgs...>(object)`; the constructor
copy-initialises the member `object` from the referenced object, so the handle
holds the value the original has at the time of the call. -/
def create_object {O : Type} (call : O → A → W → Except E R × O × W) (object : O) :
    Delegate W E R A :=
  ObjectInvoker O call object

/-- The virtual `invoke(TArgs...)`, dispatched on the concrete subclass:
`function(args...)`, `(sender->*function)(args...)`, `object(args...)`.
Yields the outcome, the handle after the call and the state after the call.
The arguments reach the target as they are, which is the case of argument
types whose copy construction has no effect on the state; `invoke_by_value`
is the general case. -/
def invoke : Delegate W E R A → A → W → Except E R × Delegate W E R A × W
  | StaticInvoker function, args, w =>
      ((function args w).1, StaticInvoker function, (function args w).2)
  | MemberInvoker C sender function, args, w =>
      ((function sender args w).1, MemberInvoker C sender function, (function sender args w).2)
  | ObjectInvoker O call object, args, w =>
      ((call object args w).1, ObjectInvoker O call (call object args w).2.1,
        (call object args w).2.2)

/-- A caller that invokes a handle once for each argument tuple of a list, in
order, and keeps every outcome (a thrown value is caught and recorded). -/
def invokeAll : Delegate W E R A → List A → W → List (Except E R) × Delegate W E R A × W
  | d, [], w => ([], d, w)
  | d, args :: rest, w =>
      ((d.invoke args w).1 :: (invokeAll (d.invoke args w).2.1 rest (d.invoke args w).2.2).1,
        (invokeAll (d.invoke args w).2.1 rest (d.invoke args w).2.2).2)

end Delegate

/-! ## Property -/

/-- The abstract class `Property<T>` with its four concrete subclasses of
namespace `Invokers`, as a closed sum.  `DelegateGetSetInvoker` derives from
`DelegateGetInvoker` and `MemberGetSetInvoker` from `MemberGetInvoker`, so each
carries the base's data members too.  The delegate-backed subclasses own their
`Delegate` handles, which are therefore held as part of the value. -/
inductive Property (W E T : Type) : Type 1 where
  /-- `Invokers::DelegateGetInvoker`: `Getter<T>* getter`. -/
  | DelegateGetInvoker (getter : Getter W E T)
  /-- `Invokers::DelegateGetSetInvoker`: `getter` and `Setter<T>* setter`. -/
  | DelegateGetSetInvoker (getter : Getter W E T) (setter : Setter W E T)
  /-- `Invokers::MemberGetInvoker`: `C* sender` and `T (C::*getter)()`. -/
  | MemberGetInvoker (C : Type) (sender : C) (getter : C → W → Except E T × W)
  /-- `Invokers::MemberGetSetInvoker`: `sender`, `getter` and
  `void (C::*setter)(T)`. -/
  | MemberGetSetInvoker (C : Type) (sender : C) (getter : C → W → Except E T × W)
      (setter : C → T → W → Except E Unit × W)

namespace Property

variable {W E T : Type}

/-- `Property::create(Delegate<T>* getter)`:
`new Invokers::DelegateGetInvoker<T>(getter)`. -/
def create_getter (getter : Getter W E T) : Property W E T :=
  DelegateGetInvoker getter

/-- `Property::create(Delegate<T>* getter, Delegate<void, T>* setter)`:
`new Invokers::DelegateGetSetInvoker<T>(getter, setter)`. -/
def create_getter_setter (getter : Getter W E T) (setter : Setter W E T) : Property W E T :=
  DelegateGetSetInvoker getter setter

/-- `Property::create(C* sender, T (C::*getter)())`:
`new Invokers::MemberGetInvoker<C, T>(sender, getter)`. -/
def create_member_getter {C : Type} (sender : C) (getter : C → W → Except E T × W) :
    Property W E T :=
  MemberGetInvoker C sender getter

/-- `Property::create(C* sender, T (C::*getter)(), void (C::*setter)(T))`:
`new Invokers::MemberGetSetInvoker<C, T>(sender, getter, setter)`. -/
def create_member_getter_setter {C : Type} (sender : C) (getter : C → W → Except E T × W)
    (setter : C → T → W → Except E Unit × W) : Property W E T :=
  MemberGetSetInvoker C sender getter setter

/-- The pure virtual `get()`: `DelegateGetInvoker::get` is
`getter->invoke()` (inherited by `DelegateGetSetInvoker`) and
`MemberGetInvoker::get` is `(sender->*getter)()` (inherited by
`MemberGetSetInvoker`). -/
def get : Property W E T → W → Except E T × Property W E T × W
  | DelegateGetInvoker getter, w =>
      ((getter.invoke () w).1, DelegateGetInvoker (getter.invoke () w).2.1,
        (getter.invoke () w).2.2)
  | DelegateGetSetInvoker getter setter, w =>
      ((getter.invoke () w).1, DelegateGetSetInvoker (getter.invoke () w).2.1 setter,
        (getter.invoke () w).2.2)
  | MemberGetInvoker C sender getter, w =>
      ((getter sender w).1, MemberGetInvoker C sender getter, (getter sender w).2)
  | MemberGetSetInvoker C sender getter setter, w =>
      ((getter sender w).1, MemberGetSetInvoker C sender getter setter, (getter sender w).2)

/-- The virtual `set(T value)`: the base body `{ }` for the two subclasses that
do not override it, `setter->invoke(value)` for `DelegateGetSetInvoker` and
`(sender->*setter)(value)` for `MemberGetSetInvoker`.  The value reaches the
setter as it is, which is the case of a type `T` whose copy construction has
no effect on the state; `set_by_value` is the general case. -/
def set : Property W E T → T → W → Except E Unit × Property W E T × W
  | DelegateGetInvoker getter, _, w => (Except.ok (), DelegateGetInvoker getter, w)
  | DelegateGetSetInvoker getter setter, value, w =>
      ((setter.invoke value w).1, DelegateGetSetInvoker getter (setter.invoke value w).2.1,
        (setter.invoke value w).2.2)
  | MemberGetInvoker C sender getter, _, w => (Except.ok (), MemberGetInvoker C sender getter, w)
  | MemberGetSetInvoker C sender getter setter, value, w =>
      ((setter sender value w).1, MemberGetSetInvoker C sender getter setter,
        (setter sender value w).2)

end Property

/-- One call a client makes on a `Property` handle. -/
inductive PropertyCall (T : Type) : Type where
  | get
  | set (value : T)

namespace Property

variable {W E T : Type}

/-- A client performing one call on a handle; the outcome of a `get` is
`some` of the value read and that of a `set` is `none`. -/
def perform (p : Property W E T) : PropertyCall T → W →
    Except E (Option T) × Property W E T × W
  | PropertyCall.get, w => (Except.map some (p.get w).1, (p.get w).2)
  | PropertyCall.set value, w => (Except.map (fun _ => none) (p.set value w).1, (p.set value w).2)

/-- A client performing a list of calls in order, keeping every outcome (a
thrown value is caught and recorded). -/
def performAll : Property W E T → List (PropertyCall T) → W →
    List (Except E (Option T)) × Property W E T × W
  | p, [], w => ([], p, w)
  | p, c :: rest, w =>
      ((p.perform c w).1 :: (performAll (p.perform c w).2.1 rest (p.perform c w).2.2).1,
        (performAll (p.perform c w).2.1 rest (p.perform c w).2.2).2)

/-- A client calling `set(value)` on a handle `n` times in a row; the outcome
is the first thrown value, if any call throws, and the calls stop there. -/
def setRepeatedly : Property W E T → T → Nat → W → Except E Unit × Property W E T × W
  | p, _, 0, w => (Except.ok (), p, w)
  | p, value, n + 1, w =>
      match (p.set value w).1 with
      | Except.ok _ => setRepeatedly (p.set value w).2.1 value n (p.set value w).2.2
      | Except.error e => (Except.error e, (p.set value w).2)

end Property

/-- The storage of an object of class `O` that lives in the state (a
caller's variable or a global): how to read the object and how to overwrite
it. -/
structure Place (W O : Type) where
  /-- The object currently stored. -/
  read : W → O
  /-- The state after the object is overwritten. -/
  write : O → W → W

/-! ## Sample programs

Concrete targets and receivers on which the general statements are
instantiated.  The state is a single `Int` variable unless said otherwise and
thrown values are strings. -/

namespace Sample

/-- A free function `int addTo(int x)` that returns `x` plus a global counter
and then increments the counter. -/
def addTo (x : Int) (w : Int) : Except String Int × Int :=
  (Except.ok (x + w), w + 1)

/-- A member function doing what `addTo` does; the receiver has no data. -/
def addToMember (_self : Unit) (x : Int) (w : Int) : Except String Int × Int :=
  (Except.ok (x + w), w + 1)

/-- The `operator()` of a callable class that does what `addTo` does and also
counts its own calls in a data member. -/
def addToCounting (calls : Nat) (x : Int) (w : Int) : Except String Int × Nat × Int :=
  (Except.ok (x + w), calls + 1, w + 1)

/-- A receiver class with one stored `int` field; objects live in a store
indexed by address, which is the state. -/
abbrev Store : Type := Nat → Int

/-- The stored field of the object at address `self`. -/
def Store.field (self : Nat) (w : Store) : Int := w self

/-- The store after the field of the object at `self` is overwritten. -/
def Store.assign (self : Nat) (value : Int) (w : Store) : Store :=
  fun a => if a = self then value else w a

/-- The member function `int getValue() { return value; }`. -/
def getValue (self : Nat) (w : Store) : Except String Int × Store :=
  (Except.ok (Store.field self w), w)

/-- The member function `void setValue(int v) { value = v; }`. -/
def setValue (self : Nat) (value : Int) (w : Store) : Except String Unit × Store :=
  (Except.ok (), Store.assign self value w)

/-- A store in which every field is zero. -/
def emptyStore : Store := fun _ => 0

/-- The `operator()` of a callable class `Current` with one `int` data member
`k`, written `int operator()() { return current.k; }` where `current` is a
global instance of the class; the state is the data of `current`. -/
def readCurrent (k : Int) (_args : Unit) (w : Int) : Except String Int × Int × Int :=
  (Except.ok w, k, w)

/-- The `operator()` of a callable class with one `int` data member `k`,
written `int operator()(int x) { total += x; return k++ + total; }` where
`total` is a global; the state is a pair: the data of the caller's original
object and `total`. -/
def accumulate (k : Int) (x : Int) (w : Int × Int) : Except String Int × Int × (Int × Int) :=
  (Except.ok (k + (w.2 + x)), k + 1, (w.1, w.2 + x))

/-- The place of the global `current` when the state is its data. -/
def currentPlace : Place Int Int := ⟨fun w => w, fun k _ => k⟩

/-- The place of the caller's original object in a state that is a pair of
that object's data and the global `total`. -/
def originalPlace : Place (Int × Int) Int := ⟨fun w => w.1, fun k w => (k, w.2)⟩

end Sample

/-! ## Object lifetimes

Every factory returns `new ...` and the owner ends a handle with `delete`.  The
heap records, for each live object, its dynamic class and its pointer members,
and it keeps a log of every release of storage performed.  A receiver is an
object of the caller with data of a type `D`.  A callable object stored in an
`ObjectInvoker` may own storage of its own, which the destructor of its class
gives back. -/

/-- Addresses of heap objects. -/
abbrev Addr : Type := Nat

/-- A live object: its dynamic class with its pointer data members, or a
receiver object of the caller with its data. -/
inductive Cell (D : Type) : Type where
  /-- `Invokers::StaticInvoker`. -/
  | StaticInvoker
  /-- `Invokers::MemberInvoker` with `C* sender`. -/
  | MemberInvoker (sender : Addr)
  /-- `Invokers::ObjectInvoker`; `O object` is part of the handle itself, and
  `owned` is the storage that object owns, given back by the destructor of
  class `O`. -/
  | ObjectInvoker (owned : List Addr)
  /-- `Invokers::DelegateGetInvoker` with `Getter<T>* getter`. -/
  | DelegateGetInvoker (getter : Addr)
  /-- `Invokers::DelegateGetSetInvoker` with `getter` and `Setter<T>* setter`. -/
  | DelegateGetSetInvoker (getter setter : Addr)
  /-- `Invokers::MemberGetInvoker` with `C* sender`. -/
  | MemberGetInvoker (sender : Addr)
  /-- `Invokers::MemberGetSetInvoker` with `C* sender`. -/
  | MemberGetSetInvoker (sender : Addr)
  /-- An object of the caller, with its data. -/
  | Receiver (data : D)
  /-- Storage owned by a callable object. -/
  | Storage

/-- The heap: the live objects by address and the log of released addresses,
oldest first. -/
structure Heap (D : Type) where
  /-- The object living at an address, if any. -/
  cells : Addr → Option (Cell D)
  /-- Every address given to `delete` so far. -/
  released : List Addr

namespace Heap

variable {D : Type}

/-- The storage at `a` is given back: nothing lives there any more, and the
release is logged. -/
def release (h : Heap D) (a : Addr) : Heap D :=
  { cells := fun b => if b = a then none else h.cells b, released := h.released ++ [a] }

/-- The storage owned by the callable object stored in the handle at `d`; a
`StaticInvoker` and a `MemberInvoker` hold pointers only. -/
def ownedStorage (h : Heap D) (d : Addr) : List Addr :=
  match h.cells d with
  | some (Cell.ObjectInvoker owned) => owned
  | _ => []

/-- The destructor of the dynamic class of the handle at `d`.  The three
invokers declare none, so it is the implicit one: for an `ObjectInvoker` the
member `object` is destroyed, the destructor of class `O` giving back the
storage the object owns, and then the base `virtual ~Delegate() { }` runs;
for the other two only the base destructor runs. -/
def destroy_Delegate (h : Heap D) (d : Addr) : Heap D :=
  match h.cells d with
  | some (Cell.ObjectInvoker owned) => owned.foldl release h
  | _ => h

/-- The expression `delete d` for a `Delegate<R, TArgs...>* d`: the virtual
destructor runs, then the storage is released. -/
def delete_Delegate (h : Heap D) (d : Addr) : Heap D :=
  (h.destroy_Delegate d).release d

/-- `virtual ~Property() {}`; the two member-backed invokers declare no
destructor of their own. -/
def destroy_Property (h : Heap D) (_p : Addr) : Heap D := h

/-- `~DelegateGetInvoker() { delete getter; }`, followed by the destructor of
the base class `Property`. -/
def destroy_DelegateGetInvoker (h : Heap D) (p getter : Addr) : Heap D :=
  (h.delete_Delegate getter).destroy_Property p

/-- `~DelegateGetSetInvoker() { delete setter; }`, followed by the destructor
of the base class `DelegateGetInvoker`. -/
def destroy_DelegateGetSetInvoker (h : Heap D) (p getter setter : Addr) : Heap D :=
  (h.delete_Delegate setter).destroy_DelegateGetInvoker p getter

/-- The expression `delete p` for a `Property<T>* p`: the virtual destructor of
the dynamic class of `*p` runs, then the storage is released. -/
def delete_Property (h : Heap D) (p : Addr) : Heap D :=
  match h.cells p with
  | some (Cell.DelegateGetInvoker getter) => (h.destroy_DelegateGetInvoker p getter).release p
  | some (Cell.DelegateGetSetInvoker getter setter) =>
      (h.destroy_DelegateGetSetInvoker p getter setter).release p
  | _ => (h.destroy_Property p).release p

/-- Whether a `Delegate` handle (of any of the three subclasses) lives at `a`. -/
def liveDelegate (h : Heap D) (a : Addr) : Bool :=
  match h.cells a with
  | some Cell.StaticInvoker => true
  | some (Cell.MemberInvoker _) => true
  | some (Cell.ObjectInvoker _) => true
  | _ => false

end Heap

namespace Sample

/-- A heap with one receiver (address `0`, data `42`), a bound-member
`Delegate` on it (`1`), two member-backed properties on it (`2` read-only, `3`
read-write), a read-write delegate-backed property (`4`) owning the bound-member
delegates `5` and `6`, and a read-only delegate-backed property (`7`) owning
the bound-member delegate `8`.  Nothing has been released. -/
def heap : Heap Int :=
  { cells := fun a =>
      match a with
      | 0 => some (Cell.Receiver 42)
      | 1 => some (Cell.MemberInvoker 0)
      | 2 => some (Cell.MemberGetInvoker 0)
      | 3 => some (Cell.MemberGetSetInvoker 0)
      | 4 => some (Cell.DelegateGetSetInvoker 5 6)
      | 5 => some (Cell.MemberInvoker 0)
      | 6 => some (Cell.MemberInvoker 0)
      | 7 => some (Cell.DelegateGetInvoker 8)
      | 8 => some (Cell.MemberInvoker 0)
      | _ => none,
    released := [] }

/-- A heap with a single read-write delegate-backed property (address `1`): its
getter handle (`2`) wraps a free function and its setter handle (`3`) wraps a
callable object that owns the storage at `4`. -/
def propertyHeap : Heap Int :=
  { cells := fun a =>
      match a with
      | 1 => some (Cell.DelegateGetSetInvoker 2 3)
      | 2 => some Cell.StaticInvoker
      | 3 => some (Cell.ObjectInvoker [4])
      | 4 => some Cell.Storage
      | _ => none,
    released := [] }

/-- A heap with a single read-only delegate-backed property (address `1`)
whose getter handle (`2`) wraps a callable object that owns the storage at
`3`. -/
def readOnlyHeap : Heap Int :=
  { cells := fun a =>
      match a with
      | 1 => some (Cell.DelegateGetInvoker 2)
      | 2 => some (Cell.ObjectInvoker [3])
      | 3 => some Cell.Storage
      | _ => none,
    released := [] }

/-- A heap with a receiver (address `0`, data `42`) and one bound-member
`Delegate` on it (`1`). -/
def receiverHeap : Heap Int :=
  { cells := fun a =>
      match a with
      | 0 => some (Cell.Receiver 42)
      | 1 => some (Cell.MemberInvoker 0)
      | _ => none,
    released := [] }

end Sample

/-! ## Instrumented targets

To count the calls a handle makes, the state is paired with a log and the
wrapped target is replaced by one that does the same and also appends an event
to the log each time it is called. -/

/-- The handle `d` with its wrapped target instrumented: each call of the
target on `args` appends `ev args` to the log. -/
def Delegate.instrumented {W E R A Ev : Type} (ev : A → Ev) :
    Delegate W E R A → Delegate (W × List Ev) E R A
  | Delegate.StaticInvoker function =>
      Delegate.StaticInvoker (fun args st =>
        ((function args st.1).1, ((function args st.1).2, st.2 ++ [ev args])))
  | Delegate.MemberInvoker C sender function =>
      Delegate.MemberInvoker C sender (fun self args st =>
        ((function self args st.1).1, ((function self args st.1).2, st.2 ++ [ev args])))
  | Delegate.ObjectInvoker O call object =>
      Delegate.ObjectInvoker O (fun o args st =>
        ((call o args st.1).1, (call o args st.1).2.1,
          ((call o args st.1).2.2, st.2 ++ [ev args]))) object

/-- The handle `p` with its getter and setter instrumented: each call of the
getter appends `get` to the log and each call of the setter on `v` appends
`set v`. -/
def Property.instrumented {W E T : Type} :
    Property W E T → Property (W × List (PropertyCall T)) E T
  | Property.DelegateGetInvoker getter =>
      Property.DelegateGetInvoker (getter.instrumented (fun _ => PropertyCall.get))
  | Property.DelegateGetSetInvoker getter setter =>
      Property.DelegateGetSetInvoker (getter.instrumented (fun _ => PropertyCall.get))
        (setter.instrumented (fun v => PropertyCall.set v))
  | Property.MemberGetInvoker C sender getter =>
      Property.MemberGetInvoker C sender (fun self st =>
        ((getter self st.1).1, ((getter self st.1).2, st.2 ++ [PropertyCall.get])))
  | Property.MemberGetSetInvoker C sender getter setter =>
      Property.MemberGetSetInvoker C sender
        (fun self st => ((getter self st.1).1, ((getter self st.1).2, st.2 ++ [PropertyCall.get])))
        (fun self v st =>
          ((setter self v st.1).1, ((setter self v st.1).2, st.2 ++ [PropertyCall.set v])))

namespace Sample

/-- The `operator()` of a callable class `Current` variant with one `int` data
member `k`, written `int operator()() { current.k = 0; return k; }` where
`current` is a global instance of the class; the state is the data of
`current`. -/
def resetCurrent (k : Int) (_args : Unit) (_w : Int) : Except String Int × Int × Int :=
  (Except.ok k, k, 0)

/-- The `operator()` of a callable class with one `int` data member `k`,
written `int operator()(int x) { ++calls; return k++ + factor * x; }` where
`factor` and `calls` are globals; the state is a triple: the data of the
caller's original object, `factor` and `calls`. -/
def scale (k : Int) (x : Int) (w : Int × Int × Int) :
    Except String Int × Int × (Int × Int × Int) :=
  (Except.ok (k + w.2.1 * x), k + 1, (w.1, w.2.1, w.2.2 + 1))

/-- The place of the caller's original object in the state of `scale`. -/
def scalePlace : Place (Int × Int × Int) Int := ⟨fun w => w.1, fun k w => (k, w.2)⟩

/-- The `operator()` of a callable class with one `int` data member `k`,
written `int operator()(int x) const { return k + x; }`. -/
def addConstant (k : Int) (x : Int) (w : Int) : Except String Int × Int × Int :=
  (Except.ok (k + x), k, w)

end Sample

/-! ## Arguments passed by value

`invoke(TArgs... args)`, `operator()(TArgs... args)` and `set(T value)` take
their arguments by value and pass the parameters on, as lvalues, to a callee
that takes them by value too: the callee's parameters are copy-constructed
from them.  Copy construction is taken to return normally. -/

/-- The copy constructor of an argument type (for a pack, of all its types at
once): copy-constructing from `a` in a state yields the new object and the
state after. -/
abbrev Copy (W A : Type) : Type := A → W → A × W

/-- Copy construction that has no effect on the state and yields an equal
object (built-in types, pointers; the empty pack). -/
def Copy.plain {W A : Type} : Copy W A := fun a w => (a, w)

namespace Delegate

variable {W E R A : Type}

/-- The virtual `invoke(TArgs... args)` with the copies made explicit:
`return function(args...);`, `return (sender->*function)(args...);` and
`return object(args...);` each copy-construct the parameters of the target
from `args` and then run the target. -/
def invoke_by_value (copy : Copy W A) :
    Delegate W E R A → A → W → Except E R × Delegate W E R A × W
  | StaticInvoker function, args, w =>
      ((function (copy args w).1 (copy args w).2).1, StaticInvoker function,
        (function (copy args w).1 (copy args w).2).2)
  | MemberInvoker C sender function, args, w =>
      ((function sender (copy args w).1 (copy args w).2).1, MemberInvoker C sender function,
        (function sender (copy args w).1 (copy args w).2).2)
  | ObjectInvoker O call object, args, w =>
      ((call object (copy args w).1 (copy args w).2).1,
        ObjectInvoker O call (call object (copy args w).1 (copy args w).2).2.1,
        (call object (copy args w).1 (copy args w).2).2.2)

/-- `R operator()(TArgs... args) { return invoke(args...); }`: the parameters
of `invoke` are copy-constructed from `args`, then `invoke` runs. -/
def call_operator (copy : Copy W A) (d : Delegate W E R A) (args : A) (w : W) :
    Except E R × Delegate W E R A × W :=
  d.invoke_by_value copy (copy args w).1 (copy args w).2

end Delegate

namespace Property

variable {W E T : Type}

/-- The virtual `set(T value)` with the copies made explicit: the base body
`{ }` for the two subclasses that do not override it;
`{ setter->invoke(value); }` copy-constructs the parameter of `invoke` from
`value` and runs `invoke`; `{ (sender->*setter)(value); }` copy-constructs the
parameter of the setter from `value` and runs the setter. -/
def set_by_value (copy : Copy W T) :
    Property W E T → T → W → Except E Unit × Property W E T × W
  | DelegateGetInvoker getter, _, w => (Except.ok (), DelegateGetInvoker getter, w)
  | DelegateGetSetInvoker getter setter, value, w =>
      ((setter.invoke_by_value copy (copy value w).1 (copy value w).2).1,
        DelegateGetSetInvoker getter
          (setter.invoke_by_value copy (copy value w).1 (copy value w).2).2.1,
        (setter.invoke_by_value copy (copy value w).1 (copy value w).2).2.2)
  | MemberGetInvoker C sender getter, _, w => (Except.ok (), MemberGetInvoker C sender getter, w)
  | MemberGetSetInvoker C sender getter setter, value, w =>
      ((setter sender (copy value w).1 (copy value w).2).1,
        MemberGetSetInvoker C sender getter setter,
        (setter sender (copy value w).1 (copy value w).2).2)

end Property

namespace Sample

/-- The copy constructor of an argument class `Tracked` that counts its copy
constructions in a global; the state is that count. -/
def countCopies : Copy Nat Int := fun a n => (a, n + 1)

/-- A free function `void ignore(Tracked)` with an empty body. -/
def ignore (_x : Int) (n : Nat) : Except String Unit × Nat := (Except.ok (), n)

/-- A member function `void ignore(Tracked)` with an empty body; the receiver
has no data. -/
def ignoreMember (_self : Unit) (_x : Int) (n : Nat) : Except String Unit × Nat :=
  (Except.ok (), n)

/-- A member function `Tracked zero()` that returns a constant and does
nothing else; the receiver has no data. -/
def zeroMember (_self : Unit) (n : Nat) : Except String Int × Nat := (Except.ok 0, n)

end Sample

/-! ## Delegate: forwarding -/

/-- With copy construction that has no effect, `invoke_by_value` is `invoke`. -/
theorem Delegate.invoke_by_value_plain {W E R A : Type} (d : Delegate W E R A) (args : A)
    (w : W) :
    d.invoke_by_value Copy.plain args w = d.invoke args w := by
  cases d <;> rfl

/-- C1, as stated, fails: the argument class `Tracked` counts its copy
constructions and the wrapped free function `ignore` does nothing.  The
caller's copy into the parameter makes the count `1`; from there `invoke`
leaves the count at `2`, whereas the direct call of `ignore` leaves it at
`1`. -/
theorem Delegate.invoke_by_value_counterexample :
    ((Delegate.create_function Sample.ignore).invoke_by_value Sample.countCopies
        (Sample.countCopies 7 0).1 (Sample.countCopies 7 0).2).2.2 = 2
    ∧ (Sample.ignore (Sample.countCopies 7 0).1 (Sample.countCopies 7 0).2).2 = 1
    ∧ ((Delegate.create_function Sample.ignore).invoke_by_value Sample.countCopies
        (Sample.countCopies 7 0).1 (Sample.countCopies 7 0).2).2.2
      ≠ (Sample.ignore (Sample.countCopies 7 0).1 (Sample.countCopies 7 0).2).2 := by
  refine ⟨rfl, rfl, ?_⟩
  simp [Delegate.invoke_by_value, Delegate.create_function, Sample.ignore, Sample.countCopies]

/-- C1, amended: a handle built by any of the three `Delegate::create`
overloads forwards `invoke(args)` to the wrapped target on a fresh copy of
`args`: the outcome and the state left are those of `f`, of `r.m`, or of the
stored copy of `o` (whose data after the call is what the handle then holds)
applied to the copy in the state the copy construction leaves, and the handle
is otherwise the same handle; nothing else is added.  When copy construction
of the arguments has no effect, this is the direct call on `args`. -/
theorem Delegate.invoke_by_value_eq_target {W E R A C O : Type} (copy : Copy W A)
    (f : A → W → Except E R × W)
    (r : C) (m : C → A → W → Except E R × W)
    (call : O → A → W → Except E R × O × W) (o : O) (args : A) (w : W) :
    ((Delegate.create_function f).invoke_by_value copy args w
        = ((f (copy args w).1 (copy args w).2).1, Delegate.create_function f,
            (f (copy args w).1 (copy args w).2).2)
      ∧ (Delegate.create_member r m).invoke_by_value copy args w
        = ((m r (copy args w).1 (copy args w).2).1, Delegate.create_member r m,
            (m r (copy args w).1 (copy args w).2).2)
      ∧ (Delegate.create_object call o).invoke_by_value copy args w
        = ((call o (copy args w).1 (copy args w).2).1,
            Delegate.create_object call (call o (copy args w).1 (copy args w).2).2.1,
            (call o (copy args w).1 (copy args w).2).2.2))
    ∧ ((Delegate.create_function f).invoke_by_value Copy.plain args w
        = ((f args w).1, Delegate.create_function f, (f args w).2)
      ∧ (Delegate.create_member r m).invoke_by_value Copy.plain args w
        = ((m r args w).1, Delegate.create_member r m, (m r args w).2)
      ∧ (Delegate.create_object call o).invoke_by_value Copy.plain args w
        = ((call o args w).1, Delegate.create_object call (call o args w).2.1,
            (call o args w).2.2)) :=
  ⟨⟨rfl, rfl, rfl⟩, ⟨rfl, rfl, rfl⟩⟩

/-! ## Delegate: substitutability -/

/-- A handle made by `create_function` is the same handle after any calls. -/
theorem Delegate.invokeAll_create_function {W E R A : Type} (f : A → W → Except E R × W)
    (argss : List A) (w : W) :
    ((Delegate.create_function f).invokeAll argss w).2.1 = Delegate.create_function f := by
  induction argss generalizing w with
  | nil => rfl
  | cons args rest ih => exact ih _

/-- A handle made by `create_member` is the same handle after any calls. -/
theorem Delegate.invokeAll_create_member {W E R A C : Type} (r : C)
    (m : C → A → W → Except E R × W) (argss : List A) (w : W) :
    ((Delegate.create_member r m).invokeAll argss w).2.1 = Delegate.create_member r m := by
  induction argss generalizing w with
  | nil => rfl
  | cons args rest ih => exact ih _

/-- C2: three handles, one of each variant, that wrap equivalent logic (the
member function applied to the receiver does what the free function does, and
the callable object, in every state of its data it can reach, returns what the
free function returns and leaves the state the free function leaves) give, for
every list of argument tuples and every starting state, the same list of
outcomes and the same final state. -/
theorem Delegate.substitutable {W E R A C O : Type}
    (f : A → W → Except E R × W)
    (r : C) (m : C → A → W → Except E R × W)
    (call : O → A → W → Except E R × O × W) (o : O) (Inv : O → Prop)
    (hm : ∀ args w, m r args w = f args w)
    (ho : Inv o)
    (hcall : ∀ o', Inv o' → ∀ args w,
      (call o' args w).1 = (f args w).1 ∧ (call o' args w).2.2 = (f args w).2
        ∧ Inv (call o' args w).2.1)
    (argss : List A) (w : W) :
    ((Delegate.create_member r m).invokeAll argss w).1
        = ((Delegate.create_function f).invokeAll argss w).1
    ∧ ((Delegate.create_member r m).invokeAll argss w).2.2
        = ((Delegate.create_function f).invokeAll argss w).2.2
    ∧ ((Delegate.create_object call o).invokeAll argss w).1
        = ((Delegate.create_function f).invokeAll argss w).1
    ∧ ((Delegate.create_object call o).invokeAll argss w).2.2
        = ((Delegate.create_function f).invokeAll argss w).2.2 := by
  induction argss generalizing w o with
  | nil => exact ⟨rfl, rfl, rfl, rfl⟩
  | cons args rest ih =>
    obtain ⟨h1, h2, h3⟩ := hcall o ho args w
    have hmem := ih (call o args w).2.1 h3 (f args w).2
    simp only [Delegate.invokeAll, Delegate.invoke, Delegate.create_function,
      Delegate.create_member, Delegate.create_object] at hmem ⊢
    rw [hm args w, h1, h2]
    exact ⟨by rw [hmem.1], hmem.2.1, by rw [hmem.2.2.1], hmem.2.2.2⟩

/-- Witness of C2 on the sample targets, called with `1` and then `2`. -/
theorem Delegate.substitutable_witness :
    (∀ args w, Sample.addToMember () args w = Sample.addTo args w)
    ∧ (∀ o' : Nat, True → ∀ args w,
        (Sample.addToCounting o' args w).1 = (Sample.addTo args w).1
          ∧ (Sample.addToCounting o' args w).2.2 = (Sample.addTo args w).2 ∧ True)
    ∧ ((Delegate.create_member () Sample.addToMember).invokeAll [1, 2] 0).1
        = ((Delegate.create_function Sample.addTo).invokeAll [1, 2] 0).1
    ∧ ((Delegate.create_member () Sample.addToMember).invokeAll [1, 2] 0).2.2
        = ((Delegate.create_function Sample.addTo).invokeAll [1, 2] 0).2.2
    ∧ ((Delegate.create_object Sample.addToCounting 0).invokeAll [1, 2] 0).1
        = ((Delegate.create_function Sample.addTo).invokeAll [1, 2] 0).1
    ∧ ((Delegate.create_object Sample.addToCounting 0).invokeAll [1, 2] 0).2.2
        = ((Delegate.create_function Sample.addTo).invokeAll [1, 2] 0).2.2 :=
  ⟨fun _ _ => rfl, fun _ _ _ _ => ⟨rfl, rfl, trivial⟩,
    Delegate.substitutable Sample.addTo () Sample.addToMember Sample.addToCounting 0
      (fun _ => True) (fun _ _ => rfl) trivial (fun _ _ _ _ => ⟨rfl, rfl, trivial⟩) [1, 2] 0⟩

/-! ## Property: read-only handles -/

/-- C3: on a read-only handle (built from a getter handle alone, or from a
receiver and a getter member alone) `n` calls of `set(v)` never throw and
leave the handle, the getter handle inside it and the state exactly as they
were, whatever the getter is (so also for a getter whose every call would
throw or change the state: it is not called); a `get()` after them is the
`get()` before them. -/
theorem Property.set_read_only_noop {W E T C : Type} (G : Getter W E T) (r : C)
    (g : C → W → Except E T × W) (v : T) (n : Nat) (w : W) :
    (Property.create_getter G).setRepeatedly v n w
        = (Except.ok (), Property.create_getter G, w)
    ∧ (Property.create_member_getter r g).setRepeatedly v n w
        = (Except.ok (), Property.create_member_getter r g, w)
    ∧ ((Property.create_getter G).setRepeatedly v n w).2.1.get
          ((Property.create_getter G).setRepeatedly v n w).2.2
        = (Property.create_getter G).get w
    ∧ ((Property.create_member_getter r g).setRepeatedly v n w).2.1.get
          ((Property.create_member_getter r g).setRepeatedly v n w).2.2
        = (Property.create_member_getter r g).get w := by
  have h1 : (Property.create_getter G).setRepeatedly v n w
      = (Except.ok (), Property.create_getter G, w) := by
    induction n with
    | zero => rfl
    | succ k ih => simpa [Property.setRepeatedly, Property.set, Property.create_getter] using ih
  have h2 : (Property.create_member_getter r g).setRepeatedly v n w
      = (Except.ok (), Property.create_member_getter r g, w) := by
    clear h1
    induction n with
    | zero => rfl
    | succ k ih =>
      simpa [Property.setRepeatedly, Property.set, Property.create_member_getter] using ih
  exact ⟨h1, h2, by rw [h1], by rw [h2]⟩

/-! ## Property: read-write handles -/

/-- C4: on a read-write handle whose getter returns one stored field of the
receiver and whose setter overwrites that field, `set(x)` succeeds and a
`get()` right after it returns `x`; both for the member-backed handle and for
a delegate-backed handle whose getter and setter handles (of any variant) do
the same. -/
theorem Property.set_then_get_roundtrip {W E T C : Type}
    (field : C → W → T) (assign : C → T → W → W) (r : C)
    (g : C → W → Except E T × W) (s : C → T → W → Except E Unit × W)
    (G : Getter W E T) (S : Setter W E T)
    (hfield : ∀ v w, field r (assign r v w) = v)
    (hg : ∀ w, (g r w).1 = Except.ok (field r w))
    (hs : ∀ v w, s r v w = (Except.ok (), assign r v w))
    (hG : ∀ w, (G.invoke () w).1 = Except.ok (field r w))
    (hS : ∀ v w, (S.invoke v w).1 = Except.ok () ∧ (S.invoke v w).2.2 = assign r v w)
    (x : T) (w : W) :
    ((Property.create_member_getter_setter r g s).set x w).1 = Except.ok ()
    ∧ (((Property.create_member_getter_setter r g s).set x w).2.1.get
          ((Property.create_member_getter_setter r g s).set x w).2.2).1 = Except.ok x
    ∧ ((Property.create_getter_setter G S).set x w).1 = Except.ok ()
    ∧ (((Property.create_getter_setter G S).set x w).2.1.get
          ((Property.create_getter_setter G S).set x w).2.2).1 = Except.ok x := by
  refine ⟨?_, ?_, ?_, ?_⟩
  · simp [Property.create_member_getter_setter, Property.set, hs]
  · simp [Property.create_member_getter_setter, Property.set, Property.get, hs, hg, hfield]
  · simp [Property.create_getter_setter, Property.set, (hS x w).1]
  · simp [Property.create_getter_setter, Property.set, Property.get, (hS x w).2, hG, hfield]

/-- Witness of C4: the object at address `3` of the sample store, with
`getValue` and `setValue`, member-backed and delegate-backed through
bound-member handles; `set(7)` then `get()` gives `7`. -/
theorem Property.set_then_get_roundtrip_witness :
    (∀ v w, Sample.Store.field 3 (Sample.Store.assign 3 v w) = v)
    ∧ (((Property.create_member_getter_setter 3 Sample.getValue Sample.setValue).set 7
            Sample.emptyStore).2.1.get
          ((Property.create_member_getter_setter 3 Sample.getValue Sample.setValue).set 7
            Sample.emptyStore).2.2).1 = Except.ok 7
    ∧ (((Property.create_getter_setter
            (Delegate.create_member 3 (fun self _ => Sample.getValue self))
            (Delegate.create_member 3 Sample.setValue)).set 7 Sample.emptyStore).2.1.get
          ((Property.create_getter_setter
            (Delegate.create_member 3 (fun self _ => Sample.getValue self))
            (Delegate.create_member 3 Sample.setValue)).set 7 Sample.emptyStore).2.2).1
        = Except.ok 7 :=
  have hfield : ∀ v w, Sample.Store.field 3 (Sample.Store.assign 3 v w) = v := fun v w => by
    simp [Sample.Store.field, Sample.Store.assign]
  have h := Property.set_then_get_roundtrip Sample.Store.field Sample.Store.assign 3
    Sample.getValue Sample.setValue
    (Delegate.create_member 3 (fun self _ => Sample.getValue self))
    (Delegate.create_member 3 Sample.setValue)
    hfield (fun _ => rfl) (fun _ _ => rfl) (fun _ => rfl) (fun _ _ => ⟨rfl, rfl⟩) 7
    Sample.emptyStore
  ⟨hfield, h.2.1, h.2.2.2⟩

/-- C6: for each of the four variants a `get()` returns what the underlying
getter returns on the state at that call, and after any change of the state a
second `get()` on the same handle returns what the getter returns on the
changed state (for a delegate-backed handle the getter is the owned handle as
the first call left it); no value of an earlier call is kept. -/
theorem Property.get_reinvokes {W E T C : Type} (G : Getter W E T) (S : Setter W E T) (r : C)
    (g : C → W → Except E T × W) (s : C → T → W → Except E Unit × W) (change : W → W)
    (w : W) :
    (((Property.create_getter G).get w).1 = (G.invoke () w).1
      ∧ (((Property.create_getter G).get w).2.1.get
            (change ((Property.create_getter G).get w).2.2)).1
          = ((G.invoke () w).2.1.invoke () (change (G.invoke () w).2.2)).1)
    ∧ (((Property.create_getter_setter G S).get w).1 = (G.invoke () w).1
      ∧ (((Property.create_getter_setter G S).get w).2.1.get
            (change ((Property.create_getter_setter G S).get w).2.2)).1
          = ((G.invoke () w).2.1.invoke () (change (G.invoke () w).2.2)).1)
    ∧ (((Property.create_member_getter r g).get w).1 = (g r w).1
      ∧ (((Property.create_member_getter r g).get w).2.1.get
            (change ((Property.create_member_getter r g).get w).2.2)).1
          = (g r (change (g r w).2)).1)
    ∧ (((Property.create_member_getter_setter r g s).get w).1 = (g r w).1
      ∧ (((Property.create_member_getter_setter r g s).get w).2.1.get
            (change ((Property.create_member_getter_setter r g s).get w).2.2)).1
          = (g r (change (g r w).2)).1) :=
  ⟨⟨rfl, rfl⟩, ⟨rfl, rfl⟩, ⟨rfl, rfl⟩, ⟨rfl, rfl⟩⟩

/-! ## Delegate: the copy held by a callable-object handle -/

/-- C7, as stated, fails: the callable class `Current` reads the data of the
global instance `current` in its `operator()`.  A handle is created from
`current` while its data is `1`; `current` is then overwritten with `2`; the
next `invoke()` returns `2`, whereas without the overwrite it returns `1`. -/
theorem Delegate.copy_isolation_counterexample :
    ((Delegate.create_object Sample.readCurrent (Sample.currentPlace.read 1)).invokeAll [()]
        (Sample.currentPlace.write 2 1)).1
      = [Except.ok 2]
    ∧ ((Delegate.create_object Sample.readCurrent (Sample.currentPlace.read 1)).invokeAll [()]
        1).1
      = [Except.ok 1]
    ∧ ((Delegate.create_object Sample.readCurrent (Sample.currentPlace.read 1)).invokeAll [()]
        (Sample.currentPlace.write 2 1)).1
      ≠ ((Delegate.create_object Sample.readCurrent (Sample.currentPlace.read 1)).invokeAll [()]
        1).1 := by
  refine ⟨rfl, rfl, ?_⟩
  simp [Delegate.invokeAll, Delegate.invoke, Delegate.create_object, Sample.readCurrent,
    Sample.currentPlace]

/-- Calls on a callable-object handle whose `operator()` does not read the
object stored at `place`: overwriting that object beforehand changes neither
the outcomes nor the copy the handle ends with, and the final states differ at
most at `place`. -/
theorem Delegate.invokeAll_create_object_unread {W E R A O : Type}
    (call : O → A → W → Except E R × O × W) (place : Place W O)
    (hunread : ∀ o x args w, ∃ y, call o args (place.write x w)
      = ((call o args w).1, (call o args w).2.1, place.write y (call o args w).2.2))
    (o : O) (x : O) (argss : List A) (w : W) :
    ((Delegate.create_object call o).invokeAll argss (place.write x w)).1
      = ((Delegate.create_object call o).invokeAll argss w).1
    ∧ ((Delegate.create_object call o).invokeAll argss (place.write x w)).2.1
      = ((Delegate.create_object call o).invokeAll argss w).2.1
    ∧ ∃ y, ((Delegate.create_object call o).invokeAll argss (place.write x w)).2.2
      = place.write y ((Delegate.create_object call o).invokeAll argss w).2.2 := by
  induction argss generalizing o x w with
  | nil => exact ⟨rfl, rfl, x, rfl⟩
  | cons args rest ih =>
    obtain ⟨y, hy⟩ := hunread o x args w
    have h := ih (call o args w).2.1 y (call o args w).2.2
    simp only [Delegate.invokeAll, Delegate.invoke, Delegate.create_object, hy] at h ⊢
    exact ⟨by rw [h.1], h.2.1, h.2.2⟩

/-- C7, amended: when the `operator()` of the callable class does not read the
storage of the original (called with the original overwritten, it returns the
same, makes the same of the object it is called on and leaves a state that
differs at most in the original), a handle created from the original is not
affected by a later mutation of the original: for every mutation and every
list of argument tuples the outcomes of the calls are those obtained without
the mutation, the copy held by the handle ends the same, and the final states
differ at most in the original. -/
theorem Delegate.copy_isolation {W E R A O : Type}
    (call : O → A → W → Except E R × O × W) (place : Place W O)
    (hunread : ∀ o x args w, ∃ y, call o args (place.write x w)
      = ((call o args w).1, (call o args w).2.1, place.write y (call o args w).2.2))
    (mutate : O → O) (argss : List A) (w : W) :
    ((Delegate.create_object call (place.read w)).invokeAll argss
        (place.write (mutate (place.read w)) w)).1
      = ((Delegate.create_object call (place.read w)).invokeAll argss w).1
    ∧ ((Delegate.create_object call (place.read w)).invokeAll argss
        (place.write (mutate (place.read w)) w)).2.1
      = ((Delegate.create_object call (place.read w)).invokeAll argss w).2.1
    ∧ ∃ y, ((Delegate.create_object call (place.read w)).invokeAll argss
        (place.write (mutate (place.read w)) w)).2.2
      = place.write y ((Delegate.create_object call (place.read w)).invokeAll argss w).2.2 :=
  Delegate.invokeAll_create_object_unread call place hunread _ _ argss w

/-- Witness of C7 amended.  The sample class whose `operator()` works on its
own data member and the global `total`: the original holds `5`, is overwritten
with `100` after the handle is created, and the handle is invoked with `1` and
then `2`.  The sample class whose `operator()` resets the global instance
`current` without reading it: the handle is created from `current` holding
`1`, `current` is overwritten with `2`, and the handle is invoked twice. -/
theorem Delegate.copy_isolation_witness :
    (∀ o x args w, ∃ y, Sample.resetCurrent o args (Sample.currentPlace.write x w)
      = ((Sample.resetCurrent o args w).1, (Sample.resetCurrent o args w).2.1,
          Sample.currentPlace.write y (Sample.resetCurrent o args w).2.2))
    ∧ ((Delegate.create_object Sample.accumulate (Sample.originalPlace.read (5, 0))).invokeAll
          [1, 2] (Sample.originalPlace.write ((fun _ => 100) (Sample.originalPlace.read (5, 0)))
            (5, 0))).1
        = ((Delegate.create_object Sample.accumulate
            (Sample.originalPlace.read (5, 0))).invokeAll [1, 2] (5, 0)).1
    ∧ ((Delegate.create_object Sample.resetCurrent (Sample.currentPlace.read 1)).invokeAll
          [(), ()] (Sample.currentPlace.write ((fun _ => 2) (Sample.currentPlace.read 1)) 1)).1
        = ((Delegate.create_object Sample.resetCurrent
            (Sample.currentPlace.read 1)).invokeAll [(), ()] 1).1 :=
  ⟨fun _ _ _ _ => ⟨0, rfl⟩,
    (Delegate.copy_isolation Sample.accumulate Sample.originalPlace
      (fun _ x _ _ => ⟨x, rfl⟩) (fun _ => 100) [1, 2] (5, 0)).1,
    (Delegate.copy_isolation Sample.resetCurrent Sample.currentPlace
      (fun _ _ _ _ => ⟨0, rfl⟩) (fun _ => 2) [(), ()] 1).1⟩

/-! ## Failure transparency -/

/-- With copy construction that has no effect, `set_by_value` is `set`. -/
theorem Property.set_by_value_plain {W E T : Type} (p : Property W E T) (v : T) (w : W) :
    p.set_by_value Copy.plain v w = p.set v w := by
  cases p <;> simp [Property.set_by_value, Property.set, Copy.plain,
    Delegate.invoke_by_value_plain]

/-- C9, as stated, fails for `set`: the class `Tracked` counts its copy
constructions and the setter handle wraps the free function `ignore`.  The
caller's copy into the parameter makes the count `1`; from there `set` on the
property leaves the count at `3`, whereas `invoke` on the setter handle leaves
it at `2`. -/
theorem Property.delegate_backed_counterexample :
    ((Property.create_getter_setter
        (Delegate.create_member () (fun self _ => Sample.zeroMember self))
        (Delegate.create_function Sample.ignore)).set_by_value Sample.countCopies
        (Sample.countCopies 7 0).1 (Sample.countCopies 7 0).2).2.2 = 3
    ∧ ((Delegate.create_function Sample.ignore).invoke_by_value Sample.countCopies
        (Sample.countCopies 7 0).1 (Sample.countCopies 7 0).2).2.2 = 2
    ∧ ((Property.create_getter_setter
        (Delegate.create_member () (fun self _ => Sample.zeroMember self))
        (Delegate.create_function Sample.ignore)).set_by_value Sample.countCopies
        (Sample.countCopies 7 0).1 (Sample.countCopies 7 0).2).2.2
      ≠ ((Delegate.create_function Sample.ignore).invoke_by_value Sample.countCopies
        (Sample.countCopies 7 0).1 (Sample.countCopies 7 0).2).2.2 := by
  refine ⟨rfl, rfl, ?_⟩
  simp [Property.set_by_value, Property.create_getter_setter, Delegate.invoke_by_value,
    Delegate.create_function, Sample.ignore, Sample.countCopies]

/-- C9, amended: a handle built from a getter handle `G` and a setter handle
`S` does, on `get()`, what `G.invoke()` does (same outcome, same state; the
parameter pack is empty, so nothing is copied; `S` is left as it was and plays
no part) and, on `set(v)`, what `S.invoke` does on a fresh copy of `v`, in the
state the copy construction leaves (`G` is left as it was and plays no part);
when copy construction of the value has no effect, `set(v)` does what
`S.invoke(v)` does.  A handle built from `G` alone does on `get()` what
`G.invoke()` does. -/
theorem Property.delegate_backed_by_value {W E T : Type} (copy : Copy W T)
    (G : Getter W E T) (S : Setter W E T) (v : T) (w : W) :
    (Property.create_getter_setter G S).get w
        = ((G.invoke_by_value Copy.plain () w).1,
            Property.create_getter_setter (G.invoke_by_value Copy.plain () w).2.1 S,
            (G.invoke_by_value Copy.plain () w).2.2)
    ∧ (Property.create_getter_setter G S).set_by_value copy v w
        = ((S.invoke_by_value copy (copy v w).1 (copy v w).2).1,
            Property.create_getter_setter G
              (S.invoke_by_value copy (copy v w).1 (copy v w).2).2.1,
            (S.invoke_by_value copy (copy v w).1 (copy v w).2).2.2)
    ∧ (Property.create_getter_setter G S).set_by_value Copy.plain v w
        = ((S.invoke_by_value Copy.plain v w).1,
            Property.create_getter_setter G (S.invoke_by_value Copy.plain v w).2.1,
            (S.invoke_by_value Copy.plain v w).2.2)
    ∧ (Property.create_getter G).get w
        = ((G.invoke_by_value Copy.plain () w).1,
            Property.create_getter (G.invoke_by_value Copy.plain () w).2.1,
            (G.invoke_by_value Copy.plain () w).2.2) := by
  refine ⟨?_, rfl, rfl, ?_⟩
  · simp [Delegate.invoke_by_value_plain, Property.create_getter_setter, Property.get]
  · simp [Delegate.invoke_by_value_plain, Property.create_getter, Property.get]

/-- Releasing a list of addresses: the log grows by the list and exactly its
members stop being live. -/
theorem Heap.foldl_release {D : Type} (l : List Addr) (h : Heap D) :
    (l.foldl Heap.release h).released = h.released ++ l
    ∧ ∀ a, (l.foldl Heap.release h).cells a = if a ∈ l then none else h.cells a := by
  induction l generalizing h with
  | nil => simp
  | cons b rest ih =>
    obtain ⟨h1, h2⟩ := ih (h.release b)
    refine ⟨?_, fun a => ?_⟩
    · rw [List.foldl_cons, h1]
      simp [Heap.release]
    · rw [List.foldl_cons, h2]
      by_cases hab : a = b <;> by_cases har : a ∈ rest <;> simp [Heap.release, hab, har]

/-- The destructor of a handle gives back the storage its callable owns. -/
theorem Heap.destroy_Delegate_eq {D : Type} (h : Heap D) (d : Addr) :
    h.destroy_Delegate d = (h.ownedStorage d).foldl Heap.release h := by
  unfold Heap.destroy_Delegate Heap.ownedStorage
  split <;> simp_all

/-- Deleting a handle: the log grows by the storage its callable owns and then
the handle, and exactly those addresses stop being live. -/
theorem Heap.delete_Delegate_spec {D : Type} (h : Heap D) (d : Addr) :
    (h.delete_Delegate d).released = h.released ++ h.ownedStorage d ++ [d]
    ∧ ∀ a, (h.delete_Delegate d).cells a
        = if a = d then none else if a ∈ h.ownedStorage d then none else h.cells a := by
  obtain ⟨h1, h2⟩ := Heap.foldl_release (h.ownedStorage d) h
  refine ⟨by simp [Heap.delete_Delegate, Heap.destroy_Delegate_eq, Heap.release, h1],
    fun a => ?_⟩
  simp [Heap.delete_Delegate, Heap.destroy_Delegate_eq, Heap.release, h2]

/-- Deleting a delegate-backed read-write property at `p` that owns `g` and
`s`: the setter is deleted, then the getter, then the property's storage is
released. -/
theorem Heap.delete_Property_getter_setter {D : Type} (h : Heap D) (p g s : Addr)
    (hp : h.cells p = some (Cell.DelegateGetSetInvoker g s)) :
    h.delete_Property p = ((h.delete_Delegate s).delete_Delegate g).release p := by
  simp [Heap.delete_Property, hp, Heap.destroy_DelegateGetSetInvoker,
    Heap.destroy_DelegateGetInvoker, Heap.destroy_Property]

/-- Deleting a delegate-backed read-only property at `p` that owns `g`: the
getter is deleted, then the property's storage is released. -/
theorem Heap.delete_Property_getter {D : Type} (h : Heap D) (p g : Addr)
    (hp : h.cells p = some (Cell.DelegateGetInvoker g)) :
    h.delete_Property p = (h.delete_Delegate g).release p := by
  simp [Heap.delete_Property, hp, Heap.destroy_DelegateGetInvoker, Heap.destroy_Property]

/-- A live `Delegate` handle is not a property. -/
theorem Heap.liveDelegate_ne {D : Type} (h : Heap D) (p d : Addr) (c : Cell D)
    (hp : h.cells p = some c) (hc : ∀ l, c ≠ Cell.ObjectInvoker l)
    (hc1 : c ≠ Cell.StaticInvoker) (hc2 : ∀ r, c ≠ Cell.MemberInvoker r)
    (hd : h.liveDelegate d = true) : d ≠ p := by
  rintro rfl
  unfold Heap.liveDelegate at hd
  rw [hp] at hd
  cases c <;> simp_all

/-- Deleting a read-write delegate-backed property whose getter and setter are
distinct handles that no stored callable owns. -/
theorem Heap.delete_Property_read_write {D : Type} (h : Heap D) (p g s : Addr)
    (hp : h.cells p = some (Cell.DelegateGetSetInvoker g s))
    (hg : h.liveDelegate g = true) (hs : h.liveDelegate s = true) (hgs : g ≠ s)
    (hown : ∀ a ∈ h.ownedStorage g ++ h.ownedStorage s, a ≠ g ∧ a ≠ s) :
    (h.delete_Property p).cells g = none
    ∧ (h.delete_Property p).cells s = none
    ∧ (h.delete_Property p).cells p = none
    ∧ (h.delete_Property p).released.count g = h.released.count g + 1
    ∧ (h.delete_Property p).released.count s = h.released.count s + 1
    ∧ (h.delete_Property p).released
        = h.released ++ (h.ownedStorage s ++ [s]) ++ (h.ownedStorage g ++ [g]) ++ [p] := by
  have hgp : g ≠ p := Heap.liveDelegate_ne h p g _ hp (by simp) (by simp) (by simp) hg
  have hsp : s ≠ p := Heap.liveDelegate_ne h p s _ hp (by simp) (by simp) (by simp) hs
  have hgg : g ∉ h.ownedStorage g := fun hm => (hown g (by simp [hm])).1 rfl
  have hgs' : g ∉ h.ownedStorage s := fun hm => (hown g (by simp [hm])).1 rfl
  have hsg : s ∉ h.ownedStorage g := fun hm => (hown s (by simp [hm])).2 rfl
  have hss : s ∉ h.ownedStorage s := fun hm => (hown s (by simp [hm])).2 rfl
  obtain ⟨r1, c1⟩ := Heap.delete_Delegate_spec h s
  have hcell : (h.delete_Delegate s).cells g = h.cells g := by
    rw [c1]; simp [hgs, hgs']
  have hog : (h.delete_Delegate s).ownedStorage g = h.ownedStorage g := by
    simp [Heap.ownedStorage, hcell]
  obtain ⟨r2, c2⟩ := Heap.delete_Delegate_spec (h.delete_Delegate s) g
  rw [hog] at r2 c2
  rw [Heap.delete_Property_getter_setter h p g s hp]
  have hlog : (((h.delete_Delegate s).delete_Delegate g).release p).released
      = h.released ++ (h.ownedStorage s ++ [s]) ++ (h.ownedStorage g ++ [g]) ++ [p] := by
    simp [Heap.release, r2, r1]
  refine ⟨?_, ?_, ?_, ?_, ?_, hlog⟩
  · simp [Heap.release, c2]
  · simp [Heap.release, c2, c1]
  · simp [Heap.release]
  · rw [hlog]
    simp [List.count_cons, List.count_eq_zero_of_not_mem, hgg, hgs', hgs, hgp, Ne.symm hgs,
      Ne.symm hgp]
  · rw [hlog]
    simp [List.count_cons, List.count_eq_zero_of_not_mem, hsg, hss, hgs, hsp, Ne.symm hgs,
      Ne.symm hsp]

/-- Deleting a read-only delegate-backed property whose getter handle is not
owned by its own stored callable. -/
theorem Heap.delete_Property_read_only {D : Type} (h : Heap D) (q k : Addr)
    (hq : h.cells q = some (Cell.DelegateGetInvoker k))
    (hk : h.liveDelegate k = true) (hown : ∀ a ∈ h.ownedStorage k, a ≠ k) :
    (h.delete_Property q).cells k = none
    ∧ (h.delete_Property q).cells q = none
    ∧ (h.delete_Property q).released.count k = h.released.count k + 1
    ∧ (h.delete_Property q).released = h.released ++ (h.ownedStorage k ++ [k]) ++ [q] := by
  have hkq : k ≠ q := Heap.liveDelegate_ne h q k _ hq (by simp) (by simp) (by simp) hk
  have hkk : k ∉ h.ownedStorage k := fun hm => hown k hm rfl
  obtain ⟨r1, c1⟩ := Heap.delete_Delegate_spec h k
  rw [Heap.delete_Property_getter h q k hq]
  have hlog : ((h.delete_Delegate k).release q).released
      = h.released ++ (h.ownedStorage k ++ [k]) ++ [q] := by
    simp [Heap.release, r1]
  refine ⟨?_, ?_, ?_, hlog⟩
  · simp [Heap.release, c1]
  · simp [Heap.release]
  · rw [hlog]
    simp [List.count_cons, List.count_eq_zero_of_not_mem, hkk, hkq, Ne.symm hkq]

/-- C11: destroying a read-write delegate-backed property releases the getter
handle and the setter handle it owns exactly once each (getter and setter
being distinct handles that the property alone owns, so that they are not
storage of the callable objects stored in them): afterwards neither is live
and the number of releases of each has grown by exactly one.  Destroying a
read-only delegate-backed property does the same with its getter handle.  The
log of releases is given in full: the setter (after the storage its callable
owns), the getter (likewise), then the property. -/
theorem Heap.delete_Property_releases_owned {D : Type} (h : Heap D) :
    (∀ p g s : Addr, h.cells p = some (Cell.DelegateGetSetInvoker g s) →
      h.liveDelegate g = true → h.liveDelegate s = true → g ≠ s →
      (∀ a ∈ h.ownedStorage g ++ h.ownedStorage s, a ≠ g ∧ a ≠ s) →
        (h.delete_Property p).cells g = none
        ∧ (h.delete_Property p).cells s = none
        ∧ (h.delete_Property p).cells p = none
        ∧ (h.delete_Property p).released.count g = h.released.count g + 1
        ∧ (h.delete_Property p).released.count s = h.released.count s + 1
        ∧ (h.delete_Property p).released
            = h.released ++ (h.ownedStorage s ++ [s]) ++ (h.ownedStorage g ++ [g]) ++ [p])
    ∧ (∀ q k : Addr, h.cells q = some (Cell.DelegateGetInvoker k) →
      h.liveDelegate k = true → (∀ a ∈ h.ownedStorage k, a ≠ k) →
        (h.delete_Property q).cells k = none
        ∧ (h.delete_Property q).cells q = none
        ∧ (h.delete_Property q).released.count k = h.released.count k + 1
        ∧ (h.delete_Property q).released
            = h.released ++ (h.ownedStorage k ++ [k]) ++ [q]) :=
  ⟨fun p g s => Heap.delete_Property_read_write h p g s,
    fun q k => Heap.delete_Property_read_only h q k⟩

/-- Witness of C11: on the heap holding the single read-write property `1`
(getter `2`, setter `3` whose callable owns `4`) the releases are `4, 3, 2, 1`
and `2` and `3` are released once; on the heap holding the single read-only
property `1` (getter `2` whose callable owns `3`) they are `3, 2, 1`. -/
theorem Heap.delete_Property_releases_owned_witness :
    Sample.propertyHeap.cells 1 = some (Cell.DelegateGetSetInvoker 2 3)
    ∧ (Sample.propertyHeap.delete_Property 1).cells 2 = none
    ∧ (Sample.propertyHeap.delete_Property 1).cells 3 = none
    ∧ (Sample.propertyHeap.delete_Property 1).released.count 2 = 1
    ∧ (Sample.propertyHeap.delete_Property 1).released.count 3 = 1
    ∧ (Sample.propertyHeap.delete_Property 1).released = [4, 3, 2, 1]
    ∧ (Sample.readOnlyHeap.delete_Property 1).released.count 2 = 1
    ∧ (Sample.readOnlyHeap.delete_Property 1).released = [3, 2, 1] :=
  have h := (Heap.delete_Property_releases_owned Sample.propertyHeap).1 1 2 3 rfl rfl rfl
    (by decide) (by simp [Heap.ownedStorage, Sample.propertyHeap])
  have k := (Heap.delete_Property_releases_owned Sample.readOnlyHeap).2 1 2 rfl rfl
    (by simp [Heap.ownedStorage, Sample.readOnlyHeap])
  ⟨rfl, h.1, h.2.1, h.2.2.2.1, h.2.2.2.2.1, h.2.2.2.2.2, k.2.2.1, k.2.2.2⟩

/-- A receiver is not a handle. -/
theorem Heap.receiver_ne {D : Type} (h : Heap D) (r a : Addr) (x : D) (c : Cell D)
    (hr : h.cells r = some (Cell.Receiver x)) (ha : h.cells a = some c)
    (hc : ∀ y, c ≠ Cell.Receiver y) : r ≠ a := by
  intro hra
  rw [← hra, hr] at ha
  exact hc x (Option.some.inj ha).symm

/-- Deleting a bound-member handle releases the handle and nothing else. -/
theorem Heap.delete_Delegate_member {D : Type} (h : Heap D) (d r : Addr)
    (hd : h.cells d = some (Cell.MemberInvoker r)) :
    h.delete_Delegate d = h.release d := by
  simp [Heap.delete_Delegate, Heap.destroy_Delegate, hd]

/-- C17: each of the following leaves the receiver `r` live with its data
unchanged, and releases nothing but what is listed: destroying a bound-member
`Delegate` handle on `r` (the handle), destroying a member-backed property on
`r`, read-only or read-write (the handle), and destroying a delegate-backed
property, read-write or read-only, whose handles are bound-member delegates on
`r` (the owned delegates, then the handle). -/
theorem Heap.receiver_never_owned {D : Type} (h : Heap D) (r : Addr) (x : D)
    (hr : h.cells r = some (Cell.Receiver x)) :
    (∀ d : Addr, h.cells d = some (Cell.MemberInvoker r) →
      (h.delete_Delegate d).cells r = some (Cell.Receiver x)
      ∧ (h.delete_Delegate d).released = h.released ++ [d])
    ∧ (∀ p : Addr, h.cells p = some (Cell.MemberGetInvoker r) →
      (h.delete_Property p).cells r = some (Cell.Receiver x)
      ∧ (h.delete_Property p).released = h.released ++ [p])
    ∧ (∀ p : Addr, h.cells p = some (Cell.MemberGetSetInvoker r) →
      (h.delete_Property p).cells r = some (Cell.Receiver x)
      ∧ (h.delete_Property p).released = h.released ++ [p])
    ∧ (∀ p g s : Addr, h.cells p = some (Cell.DelegateGetSetInvoker g s) →
      h.cells g = some (Cell.MemberInvoker r) → h.cells s = some (Cell.MemberInvoker r) →
      (h.delete_Property p).cells r = some (Cell.Receiver x)
      ∧ (h.delete_Property p).released = h.released ++ [s, g, p])
    ∧ (∀ p g : Addr, h.cells p = some (Cell.DelegateGetInvoker g) →
      h.cells g = some (Cell.MemberInvoker r) →
      (h.delete_Property p).cells r = some (Cell.Receiver x)
      ∧ (h.delete_Property p).released = h.released ++ [g, p]) := by
  refine ⟨?_, ?_, ?_, ?_, ?_⟩
  · intro d hd
    have hrd := Heap.receiver_ne h r d x _ hr hd (fun _ => by simp)
    simp [Heap.delete_Delegate_member h d r hd, Heap.release, hrd, hr]
  · intro p hp
    have hrp := Heap.receiver_ne h r p x _ hr hp (fun _ => by simp)
    simp [Heap.delete_Property, hp, Heap.destroy_Property, Heap.release, hrp, hr]
  · intro p hp
    have hrp := Heap.receiver_ne h r p x _ hr hp (fun _ => by simp)
    simp [Heap.delete_Property, hp, Heap.destroy_Property, Heap.release, hrp, hr]
  · intro p g s hp hg hs
    have hrp := Heap.receiver_ne h r p x _ hr hp (fun _ => by simp)
    have hrg := Heap.receiver_ne h r g x _ hr hg (fun _ => by simp)
    have hrs := Heap.receiver_ne h r s x _ hr hs (fun _ => by simp)
    rw [Heap.delete_Property_getter_setter h p g s hp, Heap.delete_Delegate_member h s r hs]
    by_cases hgs : g = s
    · subst hgs
      simp [Heap.delete_Delegate, Heap.destroy_Delegate, Heap.release, hrp, hrg, hr]
    · have hg1 : (h.release s).cells g = some (Cell.MemberInvoker r) := by
        simp [Heap.release, hgs, hg]
      rw [Heap.delete_Delegate_member (h.release s) g r hg1]
      simp [Heap.release, hrp, hrg, hrs, hr]
  · intro p g hp hg
    have hrp := Heap.receiver_ne h r p x _ hr hp (fun _ => by simp)
    have hrg := Heap.receiver_ne h r g x _ hr hg (fun _ => by simp)
    rw [Heap.delete_Property_getter h p g hp, Heap.delete_Delegate_member h g r hg]
    simp [Heap.release, hrp, hrg, hr]

/-- Witness of C17: on the heap holding only the receiver `0` (data `42`) and
one bound-member handle `1`, deleting the handle leaves the receiver and
releases `1` alone; on the larger sample heap the same holds for the two
member-backed properties `2` and `3` and the delegate-backed properties `4`
(owning `5` and `6`) and `7` (owning `8`). -/
theorem Heap.receiver_never_owned_witness :
    Sample.receiverHeap.cells 0 = some (Cell.Receiver 42)
    ∧ ((Sample.receiverHeap.delete_Delegate 1).cells 0 = some (Cell.Receiver 42)
      ∧ (Sample.receiverHeap.delete_Delegate 1).released = [1])
    ∧ ((Sample.heap.delete_Property 2).cells 0 = some (Cell.Receiver 42)
      ∧ (Sample.heap.delete_Property 2).released = [2])
    ∧ ((Sample.heap.delete_Property 3).cells 0 = some (Cell.Receiver 42)
      ∧ (Sample.heap.delete_Property 3).released = [3])
    ∧ ((Sample.heap.delete_Property 4).cells 0 = some (Cell.Receiver 42)
      ∧ (Sample.heap.delete_Property 4).released = [6, 5, 4])
    ∧ ((Sample.heap.delete_Property 7).cells 0 = some (Cell.Receiver 42)
      ∧ (Sample.heap.delete_Property 7).released = [8, 7]) :=
  ⟨rfl,
    (Heap.receiver_never_owned Sample.receiverHeap 0 42 rfl).1 1 rfl,
    (Heap.receiver_never_owned Sample.heap 0 42 rfl).2.1 2 rfl,
    (Heap.receiver_never_owned Sample.heap 0 42 rfl).2.2.1 3 rfl,
    (Heap.receiver_never_owned Sample.heap 0 42 rfl).2.2.2.1 4 5 6 rfl rfl rfl,
    (Heap.receiver_never_owned Sample.heap 0 42 rfl).2.2.2.2 7 8 rfl rfl⟩

/-! ## Delegate: the target after calls -/

/-- A handle made by `create_object` is, after any calls, a handle of the same
class with the same `operator()`. -/
theorem Delegate.invokeAll_create_object {W E R A O : Type}
    (call : O → A → W → Except E R × O × W) (o : O) (argss : List A) (w : W) :
    ∃ o', ((Delegate.create_object call o).invokeAll argss w).2.1
      = Delegate.create_object call o' := by
  induction argss generalizing o w with
  | nil => exact ⟨o, rfl⟩
  | cons args rest ih => exact ih _ _

/-- C12, as stated, fails for the callable-object variant: the sample class
that counts its calls in a data member is wrapped with the count at `0`; after
one `invoke(1)` the handle holds the object with the count at `1`, which is
not the object it was bound to. -/
theorem Delegate.target_immutable_counterexample :
    ((Delegate.create_object Sample.addToCounting 0).invokeAll [1] 0).2.1
      = Delegate.create_object Sample.addToCounting 1
    ∧ ((Delegate.create_object Sample.addToCounting 0).invokeAll [1] 0).2.1
      ≠ Delegate.create_object Sample.addToCounting 0 := by
  refine ⟨rfl, ?_⟩
  simp [Delegate.invokeAll, Delegate.invoke, Delegate.create_object, Sample.addToCounting]

/-- C12, amended: after any list of `invoke` calls a free-function handle holds
the function it was bound to and a bound-member handle holds the receiver and
member function it was bound to; a callable-object handle is still a handle of
the same class with the same `operator()`, and it holds the object it was bound
to whenever that `operator()` does not modify the object it is called on. -/
theorem Delegate.target_after_invokes {W E R A C O : Type}
    (f : A → W → Except E R × W)
    (r : C) (m : C → A → W → Except E R × W)
    (call : O → A → W → Except E R × O × W) (o : O) (argss : List A) (w : W) :
    ((Delegate.create_function f).invokeAll argss w).2.1 = Delegate.create_function f
    ∧ ((Delegate.create_member r m).invokeAll argss w).2.1 = Delegate.create_member r m
    ∧ (∃ o', ((Delegate.create_object call o).invokeAll argss w).2.1
        = Delegate.create_object call o')
    ∧ ((∀ o' args w', (call o' args w').2.1 = o') →
        ((Delegate.create_object call o).invokeAll argss w).2.1
          = Delegate.create_object call o) := by
  refine ⟨Delegate.invokeAll_create_function f argss w,
    Delegate.invokeAll_create_member r m argss w,
    Delegate.invokeAll_create_object call o argss w, ?_⟩
  intro hconst
  induction argss generalizing w with
  | nil => rfl
  | cons args rest ih =>
    have h := ih (call o args w).2.2
    simp only [Delegate.invokeAll, Delegate.invoke, Delegate.create_object, hconst] at h ⊢
    exact h

/-- Witness of C12 amended: the sample class with a `const` call operator,
bound with `k = 10` and invoked with `1` and then `2`. -/
theorem Delegate.target_after_invokes_witness :
    (∀ o' args w', (Sample.addConstant o' args w').2.1 = o')
    ∧ ((Delegate.create_object Sample.addConstant 10).invokeAll [1, 2] 0).2.1
        = Delegate.create_object Sample.addConstant 10 :=
  ⟨fun _ _ _ => rfl,
    (Delegate.target_after_invokes Sample.addTo () Sample.addToMember Sample.addConstant 10
      [1, 2] 0).2.2.2 (fun _ _ _ => rfl)⟩

/-! ## One call per operation -/

/-- An instrumented handle does what the handle does and logs one event. -/
theorem Delegate.invoke_instrumented {W E R A Ev : Type} (ev : A → Ev) (d : Delegate W E R A)
    (args : A) (w : W) (log : List Ev) :
    (d.instrumented ev).invoke args (w, log)
      = ((d.invoke args w).1, (d.invoke args w).2.1.instrumented ev,
          ((d.invoke args w).2.2, log ++ [ev args])) := by
  cases d <;> rfl

/-- The log after a list of calls on an instrumented handle. -/
theorem Delegate.invokeAll_instrumented_log {W E R A Ev : Type} (ev : A → Ev)
    (d : Delegate W E R A) (argss : List A) (w : W) (log : List Ev) :
    ((d.instrumented ev).invokeAll argss (w, log)).2.2.2 = log ++ argss.map ev := by
  induction argss generalizing d w log with
  | nil => simp [Delegate.invokeAll]
  | cons args rest ih =>
    simp only [Delegate.invokeAll, Delegate.invoke_instrumented, ih]
    simp

/-- The log after a `get()` on an instrumented property handle. -/
theorem Property.get_instrumented_log {W E T : Type} (p : Property W E T) (w : W)
    (log : List (PropertyCall T)) :
    (p.instrumented.get (w, log)).2.2.2 = log ++ [PropertyCall.get] := by
  cases p <;> simp [Property.instrumented, Property.get, Delegate.invoke_instrumented]

/-- One call on an instrumented delegate-backed read-write handle leaves such
a handle and logs that call. -/
theorem Property.perform_instrumented_getter_setter {W E T : Type} (G : Getter W E T)
    (S : Setter W E T) (c : PropertyCall T) (w : W) (log : List (PropertyCall T)) :
    ∃ G' S' w', ((Property.create_getter_setter G S).instrumented.perform c (w, log)).2
      = ((Property.create_getter_setter G' S').instrumented, (w', log ++ [c])) := by
  cases c with
  | get =>
    exact ⟨(G.invoke () w).2.1, S, (G.invoke () w).2.2, by
      simp [Property.perform, Property.get, Property.instrumented,
        Property.create_getter_setter, Delegate.invoke_instrumented]⟩
  | set v =>
    exact ⟨G, (S.invoke v w).2.1, (S.invoke v w).2.2, by
      simp [Property.perform, Property.set, Property.instrumented,
        Property.create_getter_setter, Delegate.invoke_instrumented]⟩

/-- The log after a list of calls on an instrumented delegate-backed
read-write handle. -/
theorem Property.performAll_instrumented_getter_setter {W E T : Type} (G : Getter W E T)
    (S : Setter W E T) (calls : List (PropertyCall T)) (w : W) (log : List (PropertyCall T)) :
    ((Property.create_getter_setter G S).instrumented.performAll calls (w, log)).2.2.2
      = log ++ calls := by
  induction calls generalizing G S w log with
  | nil => simp [Property.performAll]
  | cons c rest ih =>
    obtain ⟨G', S', w', h⟩ := Property.perform_instrumented_getter_setter G S c w log
    simp only [Property.performAll, h, ih]
    simp

/-- The log after a list of calls on an instrumented member-backed read-write
handle. -/
theorem Property.performAll_instrumented_member {W E T C : Type} (r : C)
    (g : C → W → Except E T × W) (s : C → T → W → Except E Unit × W)
    (calls : List (PropertyCall T)) (w : W) (log : List (PropertyCall T)) :
    ((Property.create_member_getter_setter r g s).instrumented.performAll calls (w, log)).2.2.2
      = log ++ calls := by
  induction calls generalizing w log with
  | nil => simp [Property.performAll]
  | cons c rest ih =>
    cases c with
    | get =>
      have h := ih (g r w).2 (log ++ [PropertyCall.get])
      simp only [Property.performAll, Property.perform, Property.get, Property.instrumented,
        Property.create_member_getter_setter] at h ⊢
      rw [h]; simp
    | set v =>
      have h := ih (s r v w).2 (log ++ [PropertyCall.set v])
      simp only [Property.performAll, Property.perform, Property.set, Property.instrumented,
        Property.create_member_getter_setter] at h ⊢
      rw [h]; simp

/-- C13: with the targets instrumented to log their calls, one `invoke(args)`
on a handle of any variant appends exactly one entry, `args`, to the target's
log, and a list of invokes appends exactly that list, in order; one `get()` on
a property of any variant appends exactly one getter entry and no setter
entry; one `set(v)` on a read-write property (delegate-backed or member-backed)
appends exactly one setter entry, `set v`, and no getter entry; a list of `n`
calls on a read-write property appends exactly those `n` calls, in order. -/
theorem Property.one_call_per_operation {W E R A T C : Type} (d : Delegate W E R A)
    (args : A) (argss : List A) (alog : List A)
    (p : Property W E T) (G : Getter W E T) (S : Setter W E T) (r : C)
    (g : C → W → Except E T × W) (s : C → T → W → Except E Unit × W)
    (v : T) (calls : List (PropertyCall T)) (log : List (PropertyCall T)) (w : W) :
    ((d.instrumented id).invoke args (w, alog)).2.2.2 = alog ++ [args]
    ∧ ((d.instrumented id).invokeAll argss (w, alog)).2.2.2 = alog ++ argss
    ∧ (p.instrumented.get (w, log)).2.2.2 = log ++ [PropertyCall.get]
    ∧ ((Property.create_getter_setter G S).instrumented.set v (w, log)).2.2.2
        = log ++ [PropertyCall.set v]
    ∧ ((Property.create_member_getter_setter r g s).instrumented.set v (w, log)).2.2.2
        = log ++ [PropertyCall.set v]
    ∧ ((Property.create_getter_setter G S).instrumented.performAll calls (w, log)).2.2.2
        = log ++ calls
    ∧ ((Property.create_member_getter_setter r g s).instrumented.performAll calls
          (w, log)).2.2.2
        = log ++ calls := by
  refine ⟨?_, ?_, Property.get_instrumented_log p w log, ?_, rfl,
    Property.performAll_instrumented_getter_setter G S calls w log,
    Property.performAll_instrumented_member r g s calls w log⟩
  · rw [Delegate.invoke_instrumented]; rfl
  · rw [Delegate.invokeAll_instrumented_log]; simp
  · simp [Property.create_getter_setter, Property.instrumented, Property.set,
      Delegate.invoke_instrumented]

/-! ## Property: member-backed handles -/

/-- C14, as stated, fails for `set`: the class `Tracked` counts its copy
constructions and the setter member `ignore` does nothing.  The caller's copy
into the parameter makes the count `1`; from there `set` on the property
leaves the count at `2`, whereas the direct call of the member leaves it at
`1`. -/
theorem Property.member_backed_counterexample :
    ((Property.create_member_getter_setter () Sample.zeroMember
        Sample.ignoreMember).set_by_value Sample.countCopies
        (Sample.countCopies 7 0).1 (Sample.countCopies 7 0).2).2.2 = 2
    ∧ (Sample.ignoreMember () (Sample.countCopies 7 0).1 (Sample.countCopies 7 0).2).2 = 1
    ∧ ((Property.create_member_getter_setter () Sample.zeroMember
        Sample.ignoreMember).set_by_value Sample.countCopies
        (Sample.countCopies 7 0).1 (Sample.countCopies 7 0).2).2.2
      ≠ (Sample.ignoreMember () (Sample.countCopies 7 0).1 (Sample.countCopies 7 0).2).2 := by
  refine ⟨rfl, rfl, ?_⟩
  simp [Property.set_by_value, Property.create_member_getter_setter, Sample.ignoreMember,
    Sample.countCopies]

/-- C14, amended: a handle built from a receiver `r` and members `g`, `s` does
on `get()` what `r.g()` does and on `set(v)` what `r.s` does on a fresh copy
of `v` in the state the copy construction leaves (what `r.s(v)` does when
copy construction of the value has no effect), and a handle built from `r` and
`g` does on `get()` what `r.g()` does, all on the state as it is at the call;
they work on the caller's receiver: after a `set(v)` through the handle a
direct `r.g()` sees what it sees after that direct call of `r.s`, and after a
direct `r.s(v)` the handle's `get()` returns what a direct `r.g()` returns. -/
theorem Property.member_backed_by_value {W E T C : Type} (copy : Copy W T) (r : C)
    (g : C → W → Except E T × W) (s : C → T → W → Except E Unit × W) (v : T) (w : W) :
    (Property.create_member_getter_setter r g s).get w
        = ((g r w).1, Property.create_member_getter_setter r g s, (g r w).2)
    ∧ (Property.create_member_getter_setter r g s).set_by_value copy v w
        = ((s r (copy v w).1 (copy v w).2).1, Property.create_member_getter_setter r g s,
            (s r (copy v w).1 (copy v w).2).2)
    ∧ (Property.create_member_getter_setter r g s).set_by_value Copy.plain v w
        = ((s r v w).1, Property.create_member_getter_setter r g s, (s r v w).2)
    ∧ (Property.create_member_getter r g).get w
        = ((g r w).1, Property.create_member_getter r g, (g r w).2)
    ∧ g r ((Property.create_member_getter_setter r g s).set_by_value copy v w).2.2
        = g r (s r (copy v w).1 (copy v w).2).2
    ∧ ((Property.create_member_getter_setter r g s).get (s r v w).2).1 = (g r (s r v w).2).1
    ∧ ((Property.create_member_getter r g).get (s r v w).2).1 = (g r (s r v w).2).1 :=
  ⟨rfl, rfl, rfl, rfl, rfl, rfl, rfl⟩

/-! ## Delegate: the call operator -/

/-- C15, as stated, fails: the argument class `Tracked` counts its copy
constructions and the wrapped free function `ignore` does nothing.  The
caller's copy into the parameter makes the count `1`; from there `d(t)` leaves
the count at `3`, whereas `d.invoke(t)` leaves it at `2`. -/
theorem Delegate.call_operator_counterexample :
    ((Delegate.create_function Sample.ignore).call_operator Sample.countCopies
        (Sample.countCopies 7 0).1 (Sample.countCopies 7 0).2).2.2 = 3
    ∧ ((Delegate.create_function Sample.ignore).invoke_by_value Sample.countCopies
        (Sample.countCopies 7 0).1 (Sample.countCopies 7 0).2).2.2 = 2
    ∧ ((Delegate.create_function Sample.ignore).call_operator Sample.countCopies
        (Sample.countCopies 7 0).1 (Sample.countCopies 7 0).2)
      ≠ ((Delegate.create_function Sample.ignore).invoke_by_value Sample.countCopies
        (Sample.countCopies 7 0).1 (Sample.countCopies 7 0).2) := by
  refine ⟨rfl, rfl, fun h => ?_⟩
  have h2 := congrArg (fun t => t.2.2) h
  simp [Delegate.call_operator, Delegate.invoke_by_value, Delegate.create_function,
    Sample.ignore, Sample.countCopies] at h2

/-- C15, amended: for a handle of any variant, `d(args)` gives the outcome, the
handle and the state that `d.invoke` gives on a fresh copy of `args`, in the
state the copy construction leaves; so the target is reached after two copy
constructions where `d.invoke(args)` reaches it after one.  When copy
construction of the arguments has no effect, `d(args)` gives what
`d.invoke(args)` gives. -/
theorem Delegate.call_operator_eq_invoke_on_copy {W E R A : Type} (copy : Copy W A)
    (d : Delegate W E R A) (f : A → W → Except E R × W) (args : A) (w : W) :
    d.call_operator copy args w = d.invoke_by_value copy (copy args w).1 (copy args w).2
    ∧ (Delegate.create_function f).call_operator copy args w
        = ((f (copy (copy args w).1 (copy args w).2).1 (copy (copy args w).1 (copy args w).2).2).1,
            Delegate.create_function f,
            (f (copy (copy args w).1 (copy args w).2).1 (copy (copy args w).1 (copy args w).2).2).2)
    ∧ d.call_operator Copy.plain args w = d.invoke_by_value Copy.plain args w
    ∧ d.call_operator Copy.plain args w = d.invoke args w :=
  ⟨rfl, rfl, rfl, Delegate.invoke_by_value_plain d args w⟩

/-! ## Delegate: the original and other copies -/

/-- C16, as stated, fails.  First, the class whose `operator()` resets the
global instance `current`: a handle created from `current` while its data is
`1` leaves, after one `invoke()`, the original with data `0`.  Second, the
class whose `operator()` reads and increments a global counter: of two handles
created from the same object, the second returns `1` on `invoke(1)` when called
alone and `2` when the first has been invoked before it. -/
theorem Delegate.copies_independent_counterexample :
    (Sample.currentPlace.read
        ((Delegate.create_object Sample.resetCurrent (Sample.currentPlace.read 1)).invokeAll
          [()] 1).2.2
      ≠ Sample.currentPlace.read 1)
    ∧ ((Delegate.create_object Sample.addToCounting 0).invokeAll [1]
          ((Delegate.create_object Sample.addToCounting 0).invokeAll [5] 0).2.2).1
        = [Except.ok 2]
    ∧ ((Delegate.create_object Sample.addToCounting 0).invokeAll [1] 0).1 = [Except.ok 1]
    ∧ ((Delegate.create_object Sample.addToCounting 0).invokeAll [1]
          ((Delegate.create_object Sample.addToCounting 0).invokeAll [5] 0).2.2).1
        ≠ ((Delegate.create_object Sample.addToCounting 0).invokeAll [1] 0).1 := by
  refine ⟨?_, rfl, rfl, ?_⟩
  · simp [Delegate.invokeAll, Delegate.invoke, Delegate.create_object, Sample.resetCurrent,
      Sample.currentPlace]
  · simp [Delegate.invokeAll, Delegate.invoke, Delegate.create_object, Sample.addToCounting]

/-- Calls on a callable-object handle leave unchanged every part of the state
that `operator()` does not write. -/
theorem Delegate.invokeAll_create_object_unwritten {W E R A O V : Type}
    (call : O → A → W → Except E R × O × W) (view : W → V)
    (hwrite : ∀ o args w, view (call o args w).2.2 = view w)
    (o : O) (argss : List A) (w : W) :
    view ((Delegate.create_object call o).invokeAll argss w).2.2 = view w := by
  induction argss generalizing o w with
  | nil => rfl
  | cons args rest ih =>
    have h := ih (call o args w).2.1 (call o args w).2.2
    simp only [Delegate.invokeAll, Delegate.invoke, Delegate.create_object] at h ⊢
    rw [h, hwrite]

/-- The outcomes of calls on a callable-object handle are the same from two
states that agree on the part `operator()` reads, when `operator()` does not
write that part. -/
theorem Delegate.invokeAll_create_object_view {W E R A O V : Type}
    (call : O → A → W → Except E R × O × W) (view : W → V)
    (hread : ∀ o args w1 w2, view w1 = view w2 →
      (call o args w1).1 = (call o args w2).1 ∧ (call o args w1).2.1 = (call o args w2).2.1)
    (hwrite : ∀ o args w, view (call o args w).2.2 = view w)
    (o : O) (argss : List A) (w1 w2 : W) (hv : view w1 = view w2) :
    ((Delegate.create_object call o).invokeAll argss w1).1
      = ((Delegate.create_object call o).invokeAll argss w2).1 := by
  induction argss generalizing o w1 w2 with
  | nil => rfl
  | cons args rest ih =>
    have hv2 : view (call o args w1).2.2 = view (call o args w2).2.2 := by
      rw [hwrite, hwrite, hv]
    have h := ih (call o args w1).2.1 (call o args w1).2.2 (call o args w2).2.2 hv2
    simp only [Delegate.invokeAll, Delegate.invoke, Delegate.create_object] at h ⊢
    rw [h, (hread o args w1 w2 hv).1, (hread o args w1 w2 hv).2]

/-- C16, amended: when the `operator()` of the callable class does not write
the storage of the original, any list of invokes on a handle created from the
original leaves the original as it was; and when `operator()` reads nothing of
the state that a call writes (there is a part `view` of the state such that
its outcome and what it makes of its own object depend on the state through
`view` only, and it leaves `view` unchanged), invokes on one of two handles
created from the same object do not change the outcome of any later invokes on
the other. -/
theorem Delegate.copies_independent {W E R A O V : Type}
    (call : O → A → W → Except E R × O × W) (place : Place W O) (view : W → V)
    (first second : List A) (w : W) :
    ((∀ o args w', place.read (call o args w').2.2 = place.read w') →
      place.read ((Delegate.create_object call (place.read w)).invokeAll first w).2.2
        = place.read w)
    ∧ ((∀ o args w1 w2, view w1 = view w2 →
          (call o args w1).1 = (call o args w2).1
          ∧ (call o args w1).2.1 = (call o args w2).2.1) →
      (∀ o args w', view (call o args w').2.2 = view w') →
      ((Delegate.create_object call (place.read w)).invokeAll second
          ((Delegate.create_object call (place.read w)).invokeAll first w).2.2).1
        = ((Delegate.create_object call (place.read w)).invokeAll second w).1) :=
  ⟨fun hplace => Delegate.invokeAll_create_object_unwritten call place.read hplace _ first w,
    fun hread hwrite => Delegate.invokeAll_create_object_view call view hread hwrite _ second
      _ w (Delegate.invokeAll_create_object_unwritten call view hwrite _ first w)⟩

/-- Witness of C16 amended: the sample class whose `operator()` reads the
global `factor`, which no call writes, and increments the global `calls`,
which it does not read; the original holds `5`, `factor` is `2`, the first
handle is invoked with `1` and `2`, the second with `3`. -/
theorem Delegate.copies_independent_witness :
    (∀ o args w', Sample.scalePlace.read (Sample.scale o args w').2.2
        = Sample.scalePlace.read w')
    ∧ Sample.scalePlace.read
        ((Delegate.create_object Sample.scale (Sample.scalePlace.read (5, 2, 0))).invokeAll
          [1, 2] (5, 2, 0)).2.2
      = Sample.scalePlace.read (5, 2, 0)
    ∧ ((Delegate.create_object Sample.scale (Sample.scalePlace.read (5, 2, 0))).invokeAll [3]
          ((Delegate.create_object Sample.scale (Sample.scalePlace.read (5, 2, 0))).invokeAll
            [1, 2] (5, 2, 0)).2.2).1
        = ((Delegate.create_object Sample.scale (Sample.scalePlace.read (5, 2, 0))).invokeAll
            [3] (5, 2, 0)).1 :=
  ⟨fun _ _ _ => rfl,
    (Delegate.copies_independent Sample.scale Sample.scalePlace (fun w => w.2.1) [1, 2] [3]
      (5, 2, 0)).1 (fun _ _ _ => rfl),
    (Delegate.copies_independent Sample.scale Sample.scalePlace (fun w => w.2.1) [1, 2] [3]
      (5, 2, 0)).2
      (fun o args w1 w2 hv => by
        have hv' : w1.2.1 = w2.2.1 := hv
        simp [Sample.scale, hv'])
      (fun _ _ _ => rfl)⟩

end SimpleDelegation
